import Mathlib

/-!
Verification of the typ test-runner engine (src/typ/runner.py and
src/typ/arg_parser.py) against its natural-language specification.

Python strings are embedded as lists of characters (`PyStr`) so that the
string operations used by the source (`str.split`, `str.join`, `in`,
lexicographic comparison) are executable, kernel-reducible Lean functions.
Times are abstract `Nat` ticks supplied by oracles; host, pool and worker
nondeterminism is supplied by explicit oracle parameters.
-/

/-- Embedding of a Python string as its list of characters. -/
abbrev PyStr := List Char

/-- Literal helper: the `PyStr` of a Lean string literal. -/
def pystr (s : String) : PyStr := s.data

/-- Embedding of Python `s.split(sep)` for a one-character separator with no
maxsplit: splits at every occurrence, keeping empty parts, so the result
always has one more part than there are separators. -/
def pySplit (sep : Char) : PyStr → List PyStr
  | [] => [[]]
  | c :: rest =>
    match pySplit sep rest with
    | [] => [[c]]
    | p :: ps => if c = sep then [] :: p :: ps else (c :: p) :: ps

/-- Embedding of Python `sep.join(parts)` for a one-character separator. -/
def pyJoin (sep : Char) (parts : List PyStr) : PyStr :=
  List.intercalate [sep] parts

/-- Lexicographic string order by code point, as Python compares strings. -/
def strLe : PyStr → PyStr → Bool
  | [], _ => true
  | _ :: _, [] => false
  | a :: as, b :: bs => if a = b then strLe as bs else decide (a < b)

/-- Modelled from the spec: `typ.json_results.ResultType` is not under
src/; per spec section 3 a Result's actual outcome is exactly one of
Pass, Failure, Skip (runner.py line 395 asserts the same three values). -/
inductive ResultType where
  | Pass
  | Failure
  | Skip
deriving DecidableEq, Repr

/-- Modelled from the spec: `typ.json_results.Result` is not under src/.
Spec section 3 lists the fields (name, actual outcome, expected outcome
set, unexpected flag, flaky flag, started timestamp, took duration,
worker id, process id, captured out/err, code). The default field values
are the ones the runner.py call sites rely on when they omit a keyword
argument (`_skip_tests` omits unexpected/flaky/code/err/pid, the
load-failure return in `_run_one_test` omits expected/flaky/out); the
spec nowhere marks any Result flaky, so `flaky` defaults to `false`. -/
structure Result where
  name : PyStr
  actual : ResultType
  started : Nat
  took : Nat
  worker : Nat
  expected : List ResultType := [ResultType.Pass]
  unexpected : Bool := false
  flaky : Bool := false
  code : Nat := 0
  out : PyStr := []
  err : PyStr := []
  pid : Nat := 0
deriving DecidableEq, Repr

/-- Embedding of `typ.runner.TestInput` (runner.py lines 39-45). -/
structure TestInput where
  name : PyStr
  msg : PyStr := []
  timeout : Option Nat := none
  expected : Option (List ResultType) := none
deriving DecidableEq, Repr

/-- Embedding of `typ.runner.TestSet` (runner.py lines 48-64): the three
buckets of test inputs.  The opaque `context`/`setup_fn`/`teardown_fn`
host values are carried through the runner unchanged and are irrelevant
to every claim, so they are not represented. -/
structure TestSet where
  parallel_tests : List TestInput := []
  isolated_tests : List TestInput := []
  tests_to_skip : List TestInput := []
deriving DecidableEq, Repr

/-- Stable insertion of `a` into `l`, before the first element `b` with
`le a b`; used to embed Python's stable `sorted`. -/
def insertByLe (le : α → α → Bool) (a : α) : List α → List α
  | [] => [a]
  | b :: bs => if le a b then a :: b :: bs else b :: insertByLe le a bs

/-- Embedding of Python `sorted(l, key=...)` as a stable insertion sort. -/
def pySorted (le : α → α → Bool) : List α → List α
  | [] => []
  | x :: xs => insertByLe le x (pySorted le xs)

/-- Embedding of `typ.runner._sort_inputs` (runner.py lines 771-772):
sort test inputs by name. -/
def sort_inputs (inps : List TestInput) : List TestInput :=
  pySorted (fun a b => strLe a.name b.name) inps

/-- Embedding of the slice of `unittest.TestResult` that
`_result_from_test_result` reads: the five annotation lists.  Each entry
is modelled by the message string the source extracts from it
(`[0][1]`); `unexpectedSuccesses` entries carry no message the source
uses. -/
structure UnitTestResult where
  failures : List PyStr := []
  errors : List PyStr := []
  skipped : List PyStr := []
  expectedFailures : List PyStr := []
  unexpectedSuccesses : List PyStr := []
deriving DecidableEq, Repr

/-- Embedding of `typ.runner._result_from_test_result` (runner.py lines
698-737): classify a raw unittest outcome record into a `Result` by the
fixed if/elif precedence chain of the source. -/
def result_from_test_result (tr : UnitTestResult) (test_name : PyStr)
    (start took : Nat) (out err : PyStr) (worker_num pid : Nat) : Result :=
  if tr.failures ≠ [] then
    { name := test_name, actual := ResultType.Failure, started := start,
      took := took, worker := worker_num, expected := [ResultType.Pass],
      unexpected := true, flaky := false, code := 1, out := out,
      err := err ++ tr.failures.headD [], pid := pid }
  else if tr.errors ≠ [] then
    { name := test_name, actual := ResultType.Failure, started := start,
      took := took, worker := worker_num, expected := [ResultType.Pass],
      unexpected := true, flaky := false, code := 1, out := out,
      err := err ++ tr.errors.headD [], pid := pid }
  else if tr.skipped ≠ [] then
    { name := test_name, actual := ResultType.Skip, started := start,
      took := took, worker := worker_num, expected := [ResultType.Skip],
      unexpected := false, flaky := false, code := 0, out := out,
      err := err ++ tr.skipped.headD [], pid := pid }
  else if tr.expectedFailures ≠ [] then
    { name := test_name, actual := ResultType.Failure, started := start,
      took := took, worker := worker_num, expected := [ResultType.Failure],
      unexpected := false, flaky := false, code := 1, out := out,
      err := err ++ tr.expectedFailures.headD [], pid := pid }
  else if tr.unexpectedSuccesses ≠ [] then
    { name := test_name, actual := ResultType.Pass, started := start,
      took := took, worker := worker_num, expected := [ResultType.Failure],
      unexpected := true, flaky := false, code := 0, out := out,
      err := err, pid := pid }
  else
    { name := test_name, actual := ResultType.Pass, started := start,
      took := took, worker := worker_num, expected := [ResultType.Pass],
      unexpected := false, flaky := false, code := 0, out := out,
      err := err, pid := pid }

/-- The outcome table exactly as the claim words it (spec section 4.3):
given which annotation kinds are present, the claimed
(actual, expected, unexpected, code) quadruple. -/
def claimedOutcome (hadFailure hadError hadSkip hadExpectedFailure
    hadUnexpectedSuccess : Bool) : ResultType × List ResultType × Bool × Nat :=
  if hadFailure then (ResultType.Failure, [ResultType.Pass], true, 1)
  else if hadError then (ResultType.Failure, [ResultType.Pass], true, 1)
  else if hadSkip then (ResultType.Skip, [ResultType.Skip], false, 0)
  else if hadExpectedFailure then
    (ResultType.Failure, [ResultType.Failure], false, 1)
  else if hadUnexpectedSuccess then
    (ResultType.Pass, [ResultType.Failure], true, 0)
  else (ResultType.Pass, [ResultType.Pass], false, 0)

/-- State of the `_run_list` loop (runner.py lines 358-385): the pending
queue (`test_inputs`), the in-flight set (`running_jobs`, kept with
Python-set semantics by `List.insert`), the accumulated `result_set`
results, and a ghost list recording the names in pool-send order. -/
structure RunListState where
  pending : List TestInput := []
  running : List PyStr := []
  results : List Result := []
  dispatched : List PyStr := []
deriving DecidableEq, Repr

/-- Embedding of the inner dispatch loop of `_run_list` (runner.py lines
371-376): while the pending queue is nonempty and the in-flight set is
smaller than `self.args.jobs`, pop the front input, send it to the pool
and add its name to the in-flight set. -/
def dispatchGo (args_jobs : Nat) (pending : List TestInput)
    (running dispatched : List PyStr) :
    List TestInput × List PyStr × List PyStr :=
  match pending with
  | [] => ([], running, dispatched)
  | t :: rest =>
    if running.length < args_jobs then
      dispatchGo args_jobs rest (running.insert t.name)
        (dispatched ++ [t.name])
    else (t :: rest, running, dispatched)

/-- The inner dispatch loop of `_run_list`, packaged on the loop state. -/
def dispatchAll (args_jobs : Nat) (s : RunListState) : RunListState :=
  let d := dispatchGo args_jobs s.pending s.running s.dispatched
  { pending := d.1, running := d.2.1, results := s.results,
    dispatched := d.2.2 }

/-- Embedding of the outer loop of `_run_list` (runner.py lines 370-382),
returning the trace of loop states.  `exec` is the worker oracle: the
`Result` that `_run_one_test` produces for a given name (its name field
is the name it was invoked on, as on every return path of
`_run_one_test`).  `oracle` supplies, for each `pool.get()` call, the
position in the in-flight set of the result that arrives; an
out-of-range position models a pool that never delivers (the loop stays
blocked in `pool.get`). -/
def runListAux (args_jobs : Nat) (exec : PyStr → Result)
    (oracle : List Nat) (s : RunListState) : List RunListState :=
  match oracle with
  | [] => [s]
  | i :: rest =>
    if s.pending.isEmpty && s.running.isEmpty then [s]
    else
      let s1 := dispatchAll args_jobs s
      if h : i < s1.running.length then
        let n := s1.running.get ⟨i, h⟩
        let r := { exec n with name := n }
        s :: s1 :: runListAux args_jobs exec rest
          { pending := s1.pending, running := s1.running.eraseIdx i,
            results := s1.results ++ [r], dispatched := s1.dispatched }
      else [s, s1]

/-- Embedding of `typ.runner.Runner._run_list` (runner.py lines 358-385).
`jobs` is the function's `jobs` parameter, `args_jobs` is
`self.args.jobs`.  After `jobs = min(len(test_inputs), jobs)`, a zero
value returns immediately; otherwise the dispatch/collect loop runs.
Returns the trace of loop states. -/
def run_list (jobs args_jobs : Nat) (exec : PyStr → Result)
    (oracle : List Nat) (test_inputs : List TestInput) : List RunListState :=
  let jobs := min test_inputs.length jobs
  if jobs = 0 then [{ pending := test_inputs }]
  else runListAux args_jobs exec oracle { pending := test_inputs }

/-- The results collected by one `_run_list` invocation (the final trace
state's result list). -/
def runListResults (jobs args_jobs : Nat) (exec : PyStr → Result)
    (oracle : List Nat) (test_inputs : List TestInput) : List Result :=
  ((run_list jobs args_jobs exec oracle test_inputs).getLastD
    { pending := test_inputs }).results

/-- The names `_run_list` sent to the pool, in send order (the final
trace state's ghost dispatch list). -/
def runListDispatched (jobs args_jobs : Nat) (exec : PyStr → Result)
    (oracle : List Nat) (test_inputs : List TestInput) : List PyStr :=
  ((run_list jobs args_jobs exec oracle test_inputs).getLastD
    { pending := test_inputs }).dispatched

/-- The safety invariant of the `_run_list` loop state: the in-flight
set is bounded by `self.args.jobs` and duplicate-free, every in-flight
name and every collected result name was dispatched, and the dispatch
record followed by the still-pending names is exactly the input name
list in order. -/
def RunListInv (args_jobs : Nat) (input_names : List PyStr)
    (s : RunListState) : Prop :=
  s.running.length ≤ args_jobs ∧
  s.running.Nodup ∧
  (∀ n ∈ s.running, n ∈ s.dispatched) ∧
  (∀ r ∈ s.results, r.name ∈ s.dispatched) ∧
  s.dispatched ++ s.pending.map TestInput.name = input_names

/-- Embedding of `typ.runner._matches` (runner.py lines 542-543): the
name matches when any glob in the list matches it.  The glob matcher
itself is Python's `fnmatch.fnmatch`, an external standard-library
collaborator, so it is a parameter `fnm`. -/
def matchesAny (fnm : PyStr → PyStr → Bool) (name : PyStr)
    (globs : List PyStr) : Bool :=
  globs.any (fun glob => fnm name glob)

/-- Embedding of `typ.runner._default_classifier` (runner.py lines
546-556): append the unit (identified by its `test.id()` name) to the
skip bucket with message "skipped by request" if it matches a skip
glob, else to the isolated bucket if it matches an isolate glob, else
to the parallel bucket. -/
def default_classifier (fnm : PyStr → PyStr → Bool)
    (skip_globs isolate_globs : List PyStr) (test_set : TestSet)
    (name : PyStr) : TestSet :=
  if matchesAny fnm name skip_globs then
    { test_set with tests_to_skip := test_set.tests_to_skip ++
        [{ name := name, msg := pystr "skipped by request" }] }
  else if matchesAny fnm name isolate_globs then
    { test_set with isolated_tests := test_set.isolated_tests ++
        [{ name := name }] }
  else
    { test_set with parallel_tests := test_set.parallel_tests ++
        [{ name := name }] }

/-- Embedding of the loop body of `Runner._skip_tests` (runner.py lines
344-356) with the host clock as an oracle indexed by call count: for
each input synthesize a Skip result carrying the input's message, on
worker 0, without engaging the pool. -/
def skipTestsGo (clock : Nat → Nat) (k : Nat) :
    List TestInput → List Result
  | [] => []
  | ti :: rest =>
    { name := ti.name, actual := ResultType.Skip, started := clock k,
      took := clock (k + 1) - clock k, worker := 0,
      expected := [ResultType.Skip],
      out := ti.msg } :: skipTestsGo clock (k + 2) rest

/-- Embedding of `typ.runner.Runner._skip_tests` (runner.py lines
344-356). -/
def skip_tests (clock : Nat → Nat) (tests_to_skip : List TestInput) :
    List Result :=
  skipTestsGo clock 0 tests_to_skip

/-- Embedding of `typ.runner.Runner._run_one_set` (runner.py lines
334-342): synthesize the skip results, then run the parallel bucket
with `self.args.jobs` jobs, then the isolated bucket with 1 job.
Returns the collected results in creation order together with the
names dispatched to the pool, in dispatch order. -/
def run_one_set (args_jobs : Nat) (clock : Nat → Nat)
    (exec : PyStr → Result) (oracleP oracleI : List Nat)
    (test_set : TestSet) : List Result × List PyStr :=
  (skip_tests clock test_set.tests_to_skip ++
     runListResults args_jobs args_jobs exec oracleP
       test_set.parallel_tests ++
     runListResults 1 args_jobs exec oracleI test_set.isolated_tests,
   runListDispatched args_jobs args_jobs exec oracleP
       test_set.parallel_tests ++
     runListDispatched 1 args_jobs exec oracleI test_set.isolated_tests)

/-- Embedding of `typ.runner.Runner._make_test_set` (runner.py lines
323-332): each bucket is sorted by name. -/
def make_test_set (parallel_tests isolated_tests tests_to_skip :
    List TestInput) : TestSet :=
  { parallel_tests := sort_inputs parallel_tests,
    isolated_tests := sort_inputs isolated_tests,
    tests_to_skip := sort_inputs tests_to_skip }

/-- Modelled from the spec: `typ.json_results.failed_test_names` is not
under src/.  Per spec sections 3 and 4.5 it is the ResultSet query
returning the names whose latest actual outcome is Failure. -/
def failed_test_names (results : List Result) : List PyStr :=
  ((results.map Result.name).dedup).filter (fun n =>
    match (results.filter (fun r => decide (r.name = n))).getLast? with
    | some r => decide (r.actual = ResultType.Failure)
    | none => false)

/-- State of the retry loop of `Runner._run_tests` (runner.py lines
284-313), apart from the `retry_limit` counter (which is the loop's own
recursion argument): the overall result collection, the current
failed-name list, and the output-display settings touched by the
first-retry branch (`self.args.overwrite`,
`self.printer.should_overwrite`, `self.args.verbose`, plus a counter of
`self.flush()` calls). -/
structure RetryState where
  results : List Result
  failed : List PyStr
  overwrite : Bool
  should_overwrite : Bool
  verbose : Nat
  flushes : Nat
deriving DecidableEq, Repr

/-- The body of one retry iteration of `Runner._run_tests` (runner.py
lines 288-311): when the counter still equals `self.args.retry_limit`
the first-retry display side effects fire (flush, overwrite off,
verbosity capped at 1); then a test set with only the isolated bucket
holding the failed names is built and run (`execAt`/`clockAt`/
`oracleAt` are the worker, clock and pool oracles of the k-th retry
pass), the retry results extend the overall collection, and the failed
names are recomputed from the retry pass alone. -/
def retryStep (args_retry_limit args_jobs : Nat)
    (clockAt : Nat → Nat → Nat) (execAt : Nat → PyStr → Result)
    (oracleAt : Nat → List Nat × List Nat) (k : Nat) (limit : Nat)
    (s : RetryState) : RetryState :=
  let s1 : RetryState :=
    if limit = args_retry_limit then
      { s with flushes := s.flushes + 1, overwrite := false,
               should_overwrite := false, verbose := min s.verbose 1 }
    else s
  let ts := make_test_set [] (s1.failed.map (fun n => { name := n })) []
  let rs := (run_one_set args_jobs (clockAt k) (execAt k)
    (oracleAt k).1 (oracleAt k).2 ts).1
  { results := s1.results ++ rs, failed := failed_test_names rs,
    overwrite := s1.overwrite, should_overwrite := s1.should_overwrite,
    verbose := s1.verbose, flushes := s1.flushes }

/-- Embedding of the retry loop `while retry_limit and failed_tests` of
`Runner._run_tests` (runner.py lines 287-311), returning the trace of
(remaining `retry_limit`, state) pairs seen at the top of the `while`:
the loop exits as soon as the counter is zero or no test failed, and
otherwise runs `retryStep` and decrements the counter. -/
def retryGo (args_retry_limit args_jobs : Nat)
    (clockAt : Nat → Nat → Nat) (execAt : Nat → PyStr → Result)
    (oracleAt : Nat → List Nat × List Nat) (k : Nat) :
    Nat → RetryState → List (Nat × RetryState)
  | 0, s => [(0, s)]
  | limit + 1, s =>
    if s.failed = [] then [(limit + 1, s)]
    else
      (limit + 1, s) ::
        retryGo args_retry_limit args_jobs clockAt execAt oracleAt
          (k + 1) limit
          (retryStep args_retry_limit args_jobs clockAt execAt oracleAt
            k (limit + 1) s)

/-- The retry section of `Runner._run_tests` as invoked for a run:
counter starting at `self.args.retry_limit`, flush counter 0, and the
printer's overwrite setting initialized from `self.args.overwrite`. -/
def run_tests_retries (args_retry_limit args_jobs : Nat)
    (clockAt : Nat → Nat → Nat) (execAt : Nat → PyStr → Result)
    (oracleAt : Nat → List Nat × List Nat) (failed0 : List PyStr)
    (results0 : List Result) (overwrite0 : Bool) (verbose0 : Nat) :
    List (Nat × RetryState) :=
  retryGo args_retry_limit args_jobs clockAt execAt oracleAt 0
    args_retry_limit
    { results := results0, failed := failed0, overwrite := overwrite0,
      should_overwrite := overwrite0, verbose := verbose0, flushes := 0 }

/-- The successive dotted names `'.'.join(comps)` tried by the
`while comps` loop of `_load_via_load_tests`, from the most specific
(full) name down to the least specific first component.  The loop pops
the last component on every iteration, which is recursion on the
reversed component list: the argument here is `comps.reverse`, and each
tried name rebuilds the popped-down component list by reversing back. -/
def chainNames : List PyStr → List PyStr
  | [] => []
  | c :: cs => pyJoin '.' (c :: cs).reverse :: chainNames cs

/-- Lookup in the `child.loaded_suites` cache (a Python dict from dotted
name to a loaded suite or `None`). -/
def lookupSuite (cache : List (PyStr × Option (List PyStr)))
    (name : PyStr) : Option (Option (List PyStr)) :=
  (cache.find? (fun e => decide (e.1 = name))).map Prod.snd

/-- Embedding of the `while comps` loop of
`typ.runner._load_via_load_tests` (runner.py lines 748-767).
`importer name` models `importlib.import_module(name)` followed by
`loader.loadTestsFromModule(module)`: `none` is an ImportError, `some
ids` is the loaded suite (a possibly empty suite is truthy in Python,
so it passes the `if suite:` test).  On a cache miss the import result
is stored; the suite is then scanned and the first member whose id
equals the requested name is added to the new suite, after which the
scan breaks and the loop pops the last component and continues.
Popping the last component is recursion on the reversed component
list, so the argument here is `comps.reverse` and each tried dotted
name reverses back, as in `chainNames`. -/
def loadTestsLoop (importer : PyStr → Option (List PyStr))
    (test_name : PyStr) :
    List PyStr → List (PyStr × Option (List PyStr)) → List PyStr →
    List PyStr × List (PyStr × Option (List PyStr))
  | [], cache, new_suite => (new_suite, cache)
  | c :: cs, cache, new_suite =>
    let name := pyJoin '.' (c :: cs).reverse
    let cache2 := if (lookupSuite cache name).isSome then cache
      else cache ++ [(name, importer name)]
    let suite := (lookupSuite cache2 name).getD none
    let new2 := match suite with
      | some ids =>
        if ids.contains test_name then new_suite ++ [test_name]
        else new_suite
      | none => new_suite
    loadTestsLoop importer test_name cs cache2 new2

/-- Embedding of `typ.runner._load_via_load_tests` (runner.py lines
740-768): walk the dotted name from most-specific to least-specific
prefix, collecting matching units into the new suite.  Returns the new
suite and the updated `loaded_suites` cache. -/
def load_via_load_tests (importer : PyStr → Option (List PyStr))
    (cache : List (PyStr × Option (List PyStr))) (test_name : PyStr) :
    List PyStr × List (PyStr × Option (List PyStr)) :=
  loadTestsLoop importer test_name (pySplit '.' test_name).reverse cache []

/-- Embedding of `typ.runner._run_one_test` (runner.py lines 635-684).
`direct_load` models `loader.loadTestsFromName(test_name)`: the list of
loaded test ids, or the message of the exception it raised, in which
case the suite comes from `_load_via_load_tests`.  `exec` models
`suite.run` on the single loaded test; `start`/`finish` are the two
`h.time()` readings and `captured_out`/`captured_err` what
`h.restore_output()` returns.  The local variable `e` is only bound by
the `except` clause, so when the direct load succeeded and the suite
does not hold exactly one test, building the error message raises
`NameError` (modelled as `Except.error`) before `restore_output` runs;
otherwise the call returns a `Result` and the returned flag records
that output capture was restored before returning. -/
def run_one_test (passthrough dry_run : Bool)
    (direct_load : Except PyStr (List PyStr))
    (importer : PyStr → Option (List PyStr))
    (cache : List (PyStr × Option (List PyStr)))
    (exec : PyStr → UnitTestResult) (worker_num pid : Nat)
    (start finish : Nat) (captured_out captured_err : PyStr)
    (test_name : PyStr) : Except PyStr (Result × Bool) :=
  let suite : List PyStr :=
    match direct_load with
    | Except.ok s => s
    | Except.error _ => (load_via_load_tests importer cache test_name).1
  let eOpt : Option PyStr :=
    match direct_load with
    | Except.ok _ => none
    | Except.error m => some m
  let tests := suite
  if tests.length ≠ 1 then
    match eOpt with
    | some e =>
      let r : Result :=
        { name := test_name, actual := ResultType.Failure,
          started := start, took := 0, worker := worker_num,
          unexpected := true, code := 1,
          err := pystr "failed to load " ++ test_name ++ pystr ": " ++ e,
          pid := pid }
      Except.ok (r, true)
    | none => Except.error (pystr "NameError: name e is not defined")
  else
    let tr := if dry_run then ({} : UnitTestResult) else exec (tests.headD [])
    Except.ok (result_from_test_result tr test_name start
      (finish - start) captured_out captured_err worker_num pid, true)

/-- Modelled from the spec: the full-results document
(`typ.json_results.make_full_results`, not under src/), reduced to the
component the exit-code law reads — the total of the
`num_failures_by_type` entries for unexpected-failure outcomes. -/
structure FullResults where
  num_unexpected_failures : Nat
deriving DecidableEq, Repr

/-- Modelled from the spec: `typ.json_results.exit_code_from_full_results`
is not under src/.  Spec section 4.6: the exit code computed from the
document is 0 if it records zero unexpected failures, else 1. -/
def exit_code_from_full_results (fr : FullResults) : Nat :=
  if fr.num_unexpected_failures = 0 then 0 else 1

/-- Embedding of the exit-code tail of `Runner.run` (runner.py lines
142-159): `ret` is what `_run_tests` returned (line 320, the exit code
from the full-results document); when a full-results document exists the
upload return value replaces a zero `ret` (lines 146-148). -/
def run_final_ret (fr : FullResults) (upload_ret : Nat) : Nat :=
  let ret := exit_code_from_full_results fr
  if ret = 0 then upload_ret else ret

/-- Embedding of the metadata validation in `ArgumentParser.parse_args`
(arg_parser.py lines 173-176): any entry without a separator sets the
parser exit status to 2, which makes `Runner.main` return before the
run starts. -/
def metadata_exit_status (metadata : List PyStr) : Option Nat :=
  if metadata.any (fun v => !v.contains '=') then some 2 else none

/-- Embedding of the `otherData` construction in
`Runner._trace_from_results` (runner.py lines 513-515): each metadata
entry is split on the separator and unpacked into exactly two names;
any other number of parts raises ValueError (modelled as
`Except.error`). -/
def trace_other_data : List PyStr → Except PyStr (List (PyStr × PyStr))
  | [] => Except.ok []
  | m :: rest =>
    match pySplit '=' m with
    | [k, v] => (trace_other_data rest).map (fun l => (k, v) :: l)
    | _ => Except.error (pystr "ValueError: too many values to unpack")

/-- A trivial worker oracle: every unit passes. -/
def passExec : PyStr → Result := fun n =>
  { name := n, actual := ResultType.Pass, started := 0, took := 0,
    worker := 0 }

/-- A worker oracle for the retry passes: every unit keeps failing. -/
def failExecAt : Nat → PyStr → Result := fun _ n =>
  { name := n, actual := ResultType.Failure, started := 0, took := 0,
    worker := 0 }

/-- Pool oracles for a retry pass over one isolated unit. -/
def oneIsolatedOracleAt : Nat → List Nat × List Nat := fun _ => ([], [0])

/-- Concrete unit inputs `a`, `b` (already in sorted name order). -/
def abInputs : List TestInput :=
  [{ name := pystr "a" }, { name := pystr "b" }]

/-- A concrete fallback importer: the prefixes `a.b` and `a` both load a
group containing the unit `a.b.t`; the full name `a.b.t` itself is not
importable. -/
def c2Importer : PyStr → Option (List PyStr) := fun s =>
  if s = pystr "a.b" ∨ s = pystr "a" then some [pystr "a.b.t"] else none

/-- A concrete glob matcher standing in for `fnmatch.fnmatch`: exact
equality of name and pattern. -/
def eqFnmatch : PyStr → PyStr → Bool := fun name glob =>
  decide (name = glob)

/-- A loader oracle on which every import fails. -/
def noneImporter : PyStr → Option (List PyStr) := fun _ => none

/-- A worker oracle on which the single test records nothing: a clean
pass. -/
def emptyExec : PyStr → UnitTestResult := fun _ => ({} : UnitTestResult)

/-- A constant host clock. -/
def zeroClock : Nat → Nat := fun _ => 0

/-- A constant host clock for each retry pass. -/
def zeroClockAt : Nat → Nat → Nat := fun _ _ => 0

/-- The Failure Result `_run_one_test` builds for the unit `mod` when
the direct load raised `ImportError: x` and the fallback load then
yielded the wrong number of units (concrete worker 7, pid 9,
start time 3). -/
def c5LoadFailure : Result :=
  { name := pystr "mod", actual := ResultType.Failure, started := 3,
    took := 0, worker := 7, unexpected := true, code := 1,
    err := pystr "failed to load mod: ImportError: x", pid := 9 }

/-- C3: every raw execution outcome record is classified by the fixed
precedence order failures, errors, skip, expected failure, unexpected
success, pass, with the claimed (actual, expected, unexpected, code)
quadruple in each case. -/
theorem C3_outcome_precedence (tr : UnitTestResult) (test_name : PyStr)
    (start took : Nat) (out err : PyStr) (worker_num pid : Nat) :
    ((result_from_test_result tr test_name start took out err worker_num
        pid).actual,
     (result_from_test_result tr test_name start took out err worker_num
        pid).expected,
     (result_from_test_result tr test_name start took out err worker_num
        pid).unexpected,
     (result_from_test_result tr test_name start took out err worker_num
        pid).code) =
    claimedOutcome (!tr.failures.isEmpty) (!tr.errors.isEmpty)
      (!tr.skipped.isEmpty) (!tr.expectedFailures.isEmpty)
      (!tr.unexpectedSuccesses.isEmpty) := by
  rcases tr with ⟨f, e, s, ef, us⟩
  cases f <;> cases e <;> cases s <;> cases ef <;> cases us <;>
    simp [result_from_test_result, claimedOutcome]

/-- C8 (code bug): the configuration check accepts the metadata entry
`a=b=c` (it contains a separator), yet building the trace document's
`otherData` from that accepted entry raises ValueError instead of
producing the pair (`a`, `b=c`), because `_trace_from_results` unpacks
an unbounded split into exactly two names; entries with no separator
are rejected with exit status 2 as claimed, and single-separator
entries map to one key/value pair. -/
theorem C8_metadata_multi_eq_crashes :
    metadata_exit_status [pystr "a=b=c"] = none ∧
    trace_other_data [pystr "a=b=c"] =
      Except.error (pystr "ValueError: too many values to unpack") ∧
    metadata_exit_status [pystr "nokey"] = some 2 ∧
    trace_other_data [pystr "k=v"] = Except.ok [(pystr "k", pystr "v")] :=
  ⟨rfl, rfl, rfl, rfl⟩

/-- C5 (code bug): when the direct load of a unit succeeds but yields a
suite with zero (or two) runnable units, `_run_one_test` evaluates
`str(e)` with the exception variable unbound and raises NameError
instead of returning a Failure Result; the claimed Failure Result is
produced only when the direct load itself raised (so `e` is bound, as
under Python 2 scoping). -/
theorem C5_wrong_cardinality_raises :
    run_one_test false false (Except.ok []) noneImporter [] emptyExec
        7 9 3 5 [] [] (pystr "emptymod") =
      Except.error (pystr "NameError: name e is not defined") ∧
    run_one_test false false (Except.ok [pystr "t1", pystr "t2"])
        noneImporter [] emptyExec 7 9 3 5 [] [] (pystr "mod") =
      Except.error (pystr "NameError: name e is not defined") ∧
    run_one_test false false (Except.error (pystr "ImportError: x"))
        noneImporter [] emptyExec 7 9 3 5 [] [] (pystr "mod") =
      Except.ok (c5LoadFailure, true) :=
  ⟨rfl, rfl, rfl⟩

/-- C6 counterexample: a run whose full-results document records zero
unexpected failures but whose upload returned 1 exits with 1, so the
claimed equivalence (exit code 0 iff zero unexpected-failure entries,
unaffected by a failed upload) is false. -/
theorem C6_counterexample :
    ¬ (run_final_ret { num_unexpected_failures := 0 } 1 = 0 ↔
       ({ num_unexpected_failures := 0 } : FullResults).num_unexpected_failures = 0) := by
  decide

/-- C6 as amended: for every completed run that produces a full-results
document, the exit code is 0 iff the document records zero
unexpected-failure entries AND the upload step returned 0 (a failed
upload turns an otherwise clean exit into its nonzero return). -/
theorem C6_amended_exit_code_law (fr : FullResults) (upload_ret : Nat) :
    run_final_ret fr upload_ret = 0 ↔
      (fr.num_unexpected_failures = 0 ∧ upload_ret = 0) := by
  unfold run_final_ret exit_code_from_full_results
  by_cases h : fr.num_unexpected_failures = 0 <;> simp [h]

/-- C2 counterexample: with an importer on which both the prefix `a.b`
and the prefix `a` load a group containing the unit `a.b.t`, the
fallback walk does not stop at the first match: the returned group
holds the requested name twice, refuting the claim that at most one
matching unit is returned. -/
theorem C2_counterexample :
    ¬ ((load_via_load_tests c2Importer [] (pystr "a.b.t")).1.length ≤ 1) := by
  decide

/-- The last element (with fallback) of a nonempty list is a member. -/
theorem list_getLastD_mem {α : Type _} :
    ∀ (l : List α) (d : α), l ≠ [] → l.getLastD d ∈ l := by
  intro l
  induction l with
  | nil => intro d h; exact absurd rfl h
  | cons a t ih =>
    intro d _
    cases t with
    | nil => simp [List.getLastD]
    | cons b t2 =>
      rw [List.getLastD_cons]
      exact List.mem_cons_of_mem a (ih a (by simp))

/-- The dispatch loop only moves names from the pending queue to the
dispatch record: the record followed by the remaining pending names is
unchanged. -/
theorem dispatchGo_names (args_jobs : Nat) (p : List TestInput) :
    ∀ (r d : List PyStr),
      (dispatchGo args_jobs p r d).2.2 ++
        ((dispatchGo args_jobs p r d).1.map TestInput.name) =
      d ++ p.map TestInput.name := by
  induction p with
  | nil => intro r d; simp [dispatchGo]
  | cons t rest ih =>
    intro r d
    simp only [dispatchGo]
    split
    · rw [ih]; simp
    · simp

/-- The dispatch loop stops only with an empty pending queue or a full
in-flight set. -/
theorem dispatchGo_stop (args_jobs : Nat) (p : List TestInput) :
    ∀ (r d : List PyStr),
      (dispatchGo args_jobs p r d).1 = [] ∨
      args_jobs ≤ (dispatchGo args_jobs p r d).2.1.length := by
  induction p with
  | nil => intro r d; left; simp [dispatchGo]
  | cons t rest ih =>
    intro r d
    simp only [dispatchGo]
    split
    · exact ih _ _
    · rename_i hnl
      right
      simpa using Nat.le_of_not_lt hnl

/-- The dispatch loop never grows the in-flight set past
`self.args.jobs`. -/
theorem dispatchGo_len_le (args_jobs : Nat) (p : List TestInput) :
    ∀ (r d : List PyStr), r.length ≤ args_jobs →
      (dispatchGo args_jobs p r d).2.1.length ≤ args_jobs := by
  induction p with
  | nil => intro r d h; simpa [dispatchGo] using h
  | cons t rest ih =>
    intro r d h
    simp only [dispatchGo]
    split
    · rename_i hlt
      apply ih
      by_cases hm : t.name ∈ r
      · rw [List.length_insert_of_mem hm]; exact h
      · rw [List.length_insert_of_not_mem hm]; omega
    · exact h

/-- The dispatch loop keeps the in-flight set duplicate-free. -/
theorem dispatchGo_nodup (args_jobs : Nat) (p : List TestInput) :
    ∀ (r d : List PyStr), r.Nodup →
      (dispatchGo args_jobs p r d).2.1.Nodup := by
  induction p with
  | nil => intro r d h; simpa [dispatchGo] using h
  | cons t rest ih =>
    intro r d h
    simp only [dispatchGo]
    split
    · refine ih _ _ ?_
      by_cases hm : t.name ∈ r
      · rw [List.insert_of_mem hm]; exact h
      · rw [List.insert_of_not_mem hm]
        exact List.nodup_cons.mpr ⟨hm, h⟩
    · exact h

/-- The dispatch loop only appends to the dispatch record. -/
theorem dispatchGo_record_mono (args_jobs : Nat) (p : List TestInput) :
    ∀ (r d : List PyStr), ∀ x ∈ d, x ∈ (dispatchGo args_jobs p r d).2.2 := by
  induction p with
  | nil => intro r d x hx; simpa [dispatchGo] using hx
  | cons t rest ih =>
    intro r d x hx
    simp only [dispatchGo]
    split
    · exact ih _ _ x (by simp [hx])
    · exact hx

/-- After the dispatch loop, every in-flight name is recorded as
dispatched. -/
theorem dispatchGo_run_sub (args_jobs : Nat) (p : List TestInput) :
    ∀ (r d : List PyStr), (∀ n ∈ r, n ∈ d) →
      ∀ n ∈ (dispatchGo args_jobs p r d).2.1,
        n ∈ (dispatchGo args_jobs p r d).2.2 := by
  induction p with
  | nil => intro r d h n hn; simp only [dispatchGo] at hn ⊢; exact h n hn
  | cons t rest ih =>
    intro r d h n hn
    simp only [dispatchGo] at hn ⊢
    revert hn
    split
    · intro hn
      refine ih _ _ ?_ n hn
      intro m hm
      rcases List.mem_insert_iff.mp hm with hm | hm
      · subst hm; simp
      · exact List.mem_append_left _ (h m hm)
    · intro hn; exact h n hn

/-- The inner dispatch phase preserves the `_run_list` invariant. -/
theorem dispatchAll_inv (args_jobs : Nat) (input_names : List PyStr)
    (s : RunListState) (h : RunListInv args_jobs input_names s) :
    RunListInv args_jobs input_names (dispatchAll args_jobs s) := by
  obtain ⟨h1, h2, h3, h4, h5⟩ := h
  refine ⟨?_, ?_, ?_, ?_, ?_⟩
  · exact dispatchGo_len_le args_jobs s.pending s.running s.dispatched h1
  · exact dispatchGo_nodup args_jobs s.pending s.running s.dispatched h2
  · exact dispatchGo_run_sub args_jobs s.pending s.running s.dispatched h3
  · intro r hr
    exact dispatchGo_record_mono args_jobs s.pending s.running
      s.dispatched r.name (h4 r hr)
  · rw [show (dispatchAll args_jobs s).dispatched =
        (dispatchGo args_jobs s.pending s.running s.dispatched).2.2 from rfl,
      show (dispatchAll args_jobs s).pending =
        (dispatchGo args_jobs s.pending s.running s.dispatched).1 from rfl,
      dispatchGo_names]
    exact h5

/-- Every state in the `_run_list` dispatch/collect trace satisfies the
invariant, whatever the pool delivers. -/
theorem runListAux_inv (args_jobs : Nat) (input_names : List PyStr)
    (exec : PyStr → Result) :
    ∀ (oracle : List Nat) (s : RunListState),
      RunListInv args_jobs input_names s →
      ∀ s' ∈ runListAux args_jobs exec oracle s,
        RunListInv args_jobs input_names s' := by
  intro oracle
  induction oracle with
  | nil =>
    intro s hs s' hmem
    simp only [runListAux, List.mem_singleton] at hmem
    exact hmem ▸ hs
  | cons i rest ih =>
    intro s hs s' hmem
    have hs1 := dispatchAll_inv args_jobs input_names s hs
    simp only [runListAux] at hmem
    split at hmem
    · simp only [List.mem_singleton] at hmem
      exact hmem ▸ hs
    · split at hmem
      · rename_i hi
        rcases List.mem_cons.mp hmem with h1 | hmem2
        · exact h1 ▸ hs
        rcases List.mem_cons.mp hmem2 with h2 | hmem3
        · exact h2 ▸ hs1
        · refine ih _ ?_ s' hmem3
          obtain ⟨g1, g2, g3, g4, g5⟩ := hs1
          refine ⟨?_, ?_, ?_, ?_, ?_⟩
          · exact le_trans
              (List.eraseIdx_sublist (dispatchAll args_jobs s).running
                i).length_le g1
          · exact (List.eraseIdx_sublist _ i).nodup g2
          · intro n hn
            exact g3 n ((List.eraseIdx_sublist _ i).subset hn)
          · intro r hr
            rcases List.mem_append.mp hr with hr | hr
            · exact g4 r hr
            · simp only [List.mem_singleton] at hr
              subst hr
              exact g3 _ (List.get_mem _ _ hi)
          · exact g5
      · rcases List.mem_cons.mp hmem with h1 | hmem2
        · exact h1 ▸ hs
        simp only [List.mem_singleton] at hmem2
        exact hmem2 ▸ hs1

/-- Every state in a `_run_list` trace satisfies the invariant. -/
theorem run_list_inv (jobs args_jobs : Nat) (exec : PyStr → Result)
    (oracle : List Nat) (test_inputs : List TestInput) :
    ∀ s' ∈ run_list jobs args_jobs exec oracle test_inputs,
      RunListInv args_jobs (test_inputs.map TestInput.name) s' := by
  intro s' h
  have hinit : RunListInv args_jobs (test_inputs.map TestInput.name)
      { pending := test_inputs } := by
    refine ⟨by simp, by simp, by simp, by simp, by simp⟩
  simp only [run_list] at h
  split at h
  · simp only [List.mem_singleton] at h
    exact h ▸ hinit
  · exact runListAux_inv args_jobs _ exec oracle _ hinit s' h

/-- C1 counterexample: invoking the scheduler on two sorted units with
invocation concurrency `jobs = 1` while `self.args.jobs = 2` reaches a
state with two units in flight, exceeding the claimed bound
`min(jobs, len(units)) = 1`: the dispatch guard reads `self.args.jobs`,
not the invocation's `jobs` parameter. -/
theorem C1_counterexample :
    ∃ s ∈ run_list 1 2 passExec [0, 0] abInputs,
      min 1 abInputs.length < s.running.length := by
  decide

/-- C1 as amended: at every point of a `_run_list` run at most
`min(self.args.jobs, len(units))` units are in flight — the bound uses
the runner's configured job count, not the invocation's `jobs`
parameter — the in-flight set is refilled to the full `self.args.jobs`
(or until the pending queue empties) each time a result is returned,
and units are dispatched in input order, hence in sorted unit-name
order for the sorted lists the runner passes in. -/
theorem C1_amended_scheduler (jobs args_jobs : Nat)
    (exec : PyStr → Result) (oracle : List Nat)
    (test_inputs : List TestInput)
    (hsorted : List.Pairwise (fun a b => strLe a.name b.name = true)
      test_inputs) :
    ∀ s ∈ run_list jobs args_jobs exec oracle test_inputs,
      s.running.length ≤ min args_jobs test_inputs.length ∧
      ((dispatchAll args_jobs s).pending = [] ∨
        (dispatchAll args_jobs s).running.length = args_jobs) ∧
      s.dispatched ++ s.pending.map TestInput.name =
        test_inputs.map TestInput.name ∧
      List.Pairwise (fun a b => strLe a b = true) s.dispatched := by
  intro s hmem
  obtain ⟨h1, h2, h3, h4, h5⟩ :=
    run_list_inv jobs args_jobs exec oracle test_inputs s hmem
  refine ⟨?_, ?_, h5, ?_⟩
  · refine le_min h1 ?_
    have hsub : s.running.toFinset ⊆ s.dispatched.toFinset := by
      intro x hx
      rw [List.mem_toFinset] at hx ⊢
      exact h3 x hx
    have hrd : s.running.length ≤ s.dispatched.length :=
      calc s.running.length = s.running.toFinset.card :=
            (List.toFinset_card_of_nodup h2).symm
        _ ≤ s.dispatched.toFinset.card := Finset.card_le_card hsub
        _ ≤ s.dispatched.length := List.toFinset_card_le _
    have hlen : s.dispatched.length +
        (s.pending.map TestInput.name).length =
        (test_inputs.map TestInput.name).length := by
      rw [← List.length_append, h5]
    simp only [List.length_map] at hlen
    omega
  · rcases dispatchGo_stop args_jobs s.pending s.running s.dispatched
      with h | h
    · left
      exact h
    · right
      have hle := dispatchGo_len_le args_jobs s.pending s.running
        s.dispatched h1
      show (dispatchGo args_jobs s.pending s.running s.dispatched).2.1.length
        = args_jobs
      omega
  · have hmap : List.Pairwise (fun a b => strLe a b = true)
        (test_inputs.map TestInput.name) :=
      List.Pairwise.map _ (fun a b hab => hab) hsorted
    rw [← h5] at hmap
    exact (List.pairwise_append.mp hmap).1

/-- C1 amended witness: the amended scheduler contract evaluated on the
two sorted units `a`, `b` with two jobs. -/
theorem C1_amended_scheduler_witness :
    List.Pairwise (fun a b => strLe a.name b.name = true) abInputs ∧
    ∀ s ∈ run_list 2 2 passExec [0, 0] abInputs,
      s.running.length ≤ min 2 abInputs.length ∧
      ((dispatchAll 2 s).pending = [] ∨
        (dispatchAll 2 s).running.length = 2) ∧
      s.dispatched ++ s.pending.map TestInput.name =
        abInputs.map TestInput.name ∧
      List.Pairwise (fun a b => strLe a b = true) s.dispatched :=
  ⟨by decide, C1_amended_scheduler 2 2 passExec [0, 0] abInputs (by decide)⟩

/-- Folding the default classifier over discovered names appends to each
bucket exactly the matching names, in order: skip-glob matches go to the
skip bucket with the standard message, remaining isolate-glob matches to
the isolated bucket, and the rest to the parallel bucket. -/
theorem classifier_fold_spec (fnm : PyStr → PyStr → Bool)
    (skip_globs isolate_globs : List PyStr) :
    ∀ (names : List PyStr) (ts0 : TestSet),
      (names.foldl (default_classifier fnm skip_globs isolate_globs)
          ts0).tests_to_skip =
        ts0.tests_to_skip ++
          (names.filter (fun m => matchesAny fnm m skip_globs)).map
            (fun m => { name := m, msg := pystr "skipped by request" }) ∧
      (names.foldl (default_classifier fnm skip_globs isolate_globs)
          ts0).isolated_tests =
        ts0.isolated_tests ++
          (names.filter (fun m => !matchesAny fnm m skip_globs &&
            matchesAny fnm m isolate_globs)).map (fun m => { name := m }) ∧
      (names.foldl (default_classifier fnm skip_globs isolate_globs)
          ts0).parallel_tests =
        ts0.parallel_tests ++
          (names.filter (fun m => !matchesAny fnm m skip_globs &&
            !matchesAny fnm m isolate_globs)).map
            (fun m => { name := m }) := by
  intro names
  induction names with
  | nil => intro ts0; simp
  | cons n rest ih =>
    intro ts0
    obtain ⟨ih1, ih2, ih3⟩ :=
      ih (default_classifier fnm skip_globs isolate_globs ts0 n)
    by_cases h1 : matchesAny fnm n skip_globs
    · refine ⟨?_, ?_, ?_⟩
      · rw [List.foldl_cons, ih1]
        simp [default_classifier, h1, List.filter_cons]
      · rw [List.foldl_cons, ih2]
        simp [default_classifier, h1, List.filter_cons]
      · rw [List.foldl_cons, ih3]
        simp [default_classifier, h1, List.filter_cons]
    · by_cases h2 : matchesAny fnm n isolate_globs
      · refine ⟨?_, ?_, ?_⟩
        · rw [List.foldl_cons, ih1]
          simp [default_classifier, h1, h2, List.filter_cons]
        · rw [List.foldl_cons, ih2]
          simp [default_classifier, h1, h2, List.filter_cons]
        · rw [List.foldl_cons, ih3]
          simp [default_classifier, h1, h2, List.filter_cons]
      · refine ⟨?_, ?_, ?_⟩
        · rw [List.foldl_cons, ih1]
          simp [default_classifier, h1, h2, List.filter_cons]
        · rw [List.foldl_cons, ih2]
          simp [default_classifier, h1, h2, List.filter_cons]
        · rw [List.foldl_cons, ih3]
          simp [default_classifier, h1, h2, List.filter_cons]

/-- `_skip_tests` synthesizes, for each input in order, a Skip result on
worker 0 with expected `[Skip]`, the input's message as output and a
false flaky flag; every input gets such a result. -/
theorem skipTestsGo_spec (clock : Nat → Nat) :
    ∀ (tests : List TestInput) (k : Nat),
      (∀ r ∈ skipTestsGo clock k tests,
        r.actual = ResultType.Skip ∧ r.expected = [ResultType.Skip] ∧
        r.flaky = false ∧ r.worker = 0 ∧
        ∃ ti ∈ tests, r.name = ti.name ∧ r.out = ti.msg) ∧
      (∀ ti ∈ tests, ∃ r ∈ skipTestsGo clock k tests,
        r.name = ti.name ∧ r.out = ti.msg) := by
  intro tests
  induction tests with
  | nil => intro k; constructor <;> simp [skipTestsGo]
  | cons ti rest ih =>
    intro k
    obtain ⟨ih1, ih2⟩ := ih (k + 2)
    constructor
    · intro r hr
      rcases List.mem_cons.mp hr with hr | hr
      · subst hr
        exact ⟨rfl, rfl, rfl, rfl, ti, by simp, rfl, rfl⟩
      · obtain ⟨a1, a2, a3, a4, ti2, hti2, a5, a6⟩ := ih1 r hr
        exact ⟨a1, a2, a3, a4, ti2, List.mem_cons_of_mem _ hti2, a5, a6⟩
    · intro ti2 hti2
      rcases List.mem_cons.mp hti2 with hti2 | hti2
      · subst hti2
        exact ⟨_, List.mem_cons_self _ _, rfl, rfl⟩
      · obtain ⟨r, hr, b1, b2⟩ := ih2 ti2 hti2
        exact ⟨r, List.mem_cons_of_mem _ hr, b1, b2⟩

/-- The `_run_list` trace is never empty. -/
theorem runListAux_ne_nil (args_jobs : Nat) (exec : PyStr → Result)
    (oracle : List Nat) (s : RunListState) :
    runListAux args_jobs exec oracle s ≠ [] := by
  cases oracle with
  | nil => simp [runListAux]
  | cons i rest =>
    simp only [runListAux]
    split
    · simp
    · split <;> simp

/-- A `_run_list` run produces at least one trace state. -/
theorem run_list_ne_nil (jobs args_jobs : Nat) (exec : PyStr → Result)
    (oracle : List Nat) (test_inputs : List TestInput) :
    run_list jobs args_jobs exec oracle test_inputs ≠ [] := by
  simp only [run_list]
  split
  · simp
  · exact runListAux_ne_nil args_jobs exec oracle _

/-- Every name `_run_list` dispatches comes from its input list. -/
theorem runListDispatched_sub (jobs args_jobs : Nat)
    (exec : PyStr → Result) (oracle : List Nat)
    (test_inputs : List TestInput) :
    ∀ x ∈ runListDispatched jobs args_jobs exec oracle test_inputs,
      x ∈ test_inputs.map TestInput.name := by
  intro x hx
  have hmem := list_getLastD_mem
    (run_list jobs args_jobs exec oracle test_inputs)
    { pending := test_inputs }
    (run_list_ne_nil jobs args_jobs exec oracle test_inputs)
  obtain ⟨_, _, _, _, h5⟩ :=
    run_list_inv jobs args_jobs exec oracle test_inputs _ hmem
  rw [← h5]
  exact List.mem_append_left _ hx

/-- Every result `_run_list` collects is for a name from its input
list. -/
theorem runListResults_name_sub (jobs args_jobs : Nat)
    (exec : PyStr → Result) (oracle : List Nat)
    (test_inputs : List TestInput) :
    ∀ r ∈ runListResults jobs args_jobs exec oracle test_inputs,
      r.name ∈ test_inputs.map TestInput.name := by
  intro r hr
  have hmem := list_getLastD_mem
    (run_list jobs args_jobs exec oracle test_inputs)
    { pending := test_inputs }
    (run_list_ne_nil jobs args_jobs exec oracle test_inputs)
  obtain ⟨_, _, _, h4, h5⟩ :=
    run_list_inv jobs args_jobs exec oracle test_inputs _ hmem
  rw [← h5]
  exact List.mem_append_left _ (h4 r hr)

/-- Every name `_run_one_set` dispatches to the pool comes from its
parallel or isolated bucket; the skip bucket is never dispatched. -/
theorem run_one_set_dispatched_sub (args_jobs : Nat) (clock : Nat → Nat)
    (exec : PyStr → Result) (oracleP oracleI : List Nat) (ts : TestSet) :
    ∀ x ∈ (run_one_set args_jobs clock exec oracleP oracleI ts).2,
      x ∈ ts.parallel_tests.map TestInput.name ++
        ts.isolated_tests.map TestInput.name := by
  intro x hx
  rcases List.mem_append.mp hx with hx | hx
  · exact List.mem_append_left _
      (runListDispatched_sub args_jobs args_jobs exec oracleP _ x hx)
  · exact List.mem_append_right _
      (runListDispatched_sub 1 args_jobs exec oracleI _ x hx)

/-- C7: the default classifier sends every discovered unit to exactly
one bucket — skip (with message "skipped by request") when the name
matches a skip glob, else isolated when it matches an isolate glob,
else parallel, each bucket holding exactly the matching names in
discovery order — and a skipped unit gets a synthesized Result with
outcome Skip carrying that message while its name is never dispatched
to the worker pool. -/
theorem C7_default_classifier (fnm : PyStr → PyStr → Bool)
    (skip_globs isolate_globs : List PyStr) (names : List PyStr)
    (n : PyStr) (clock : Nat → Nat) (args_jobs : Nat)
    (exec : PyStr → Result) (oracleP oracleI : List Nat)
    (hn : n ∈ names) (hskip : matchesAny fnm n skip_globs = true) :
    (names.foldl (default_classifier fnm skip_globs isolate_globs)
        {}).tests_to_skip.map TestInput.name =
      names.filter (fun m => matchesAny fnm m skip_globs) ∧
    (names.foldl (default_classifier fnm skip_globs isolate_globs)
        {}).isolated_tests.map TestInput.name =
      names.filter (fun m => !matchesAny fnm m skip_globs &&
        matchesAny fnm m isolate_globs) ∧
    (names.foldl (default_classifier fnm skip_globs isolate_globs)
        {}).parallel_tests.map TestInput.name =
      names.filter (fun m => !matchesAny fnm m skip_globs &&
        !matchesAny fnm m isolate_globs) ∧
    (∀ ti ∈ (names.foldl (default_classifier fnm skip_globs
        isolate_globs) {}).tests_to_skip,
      ti.msg = pystr "skipped by request") ∧
    (∀ r ∈ skip_tests clock (names.foldl (default_classifier fnm
        skip_globs isolate_globs) {}).tests_to_skip,
      r.actual = ResultType.Skip ∧ r.expected = [ResultType.Skip]) ∧
    (∃ r ∈ skip_tests clock (names.foldl (default_classifier fnm
        skip_globs isolate_globs) {}).tests_to_skip,
      r.name = n ∧ r.out = pystr "skipped by request") ∧
    n ∉ (run_one_set args_jobs clock exec oracleP oracleI
      (names.foldl (default_classifier fnm skip_globs isolate_globs)
        {})).2 := by
  obtain ⟨e1, e2, e3⟩ := classifier_fold_spec fnm skip_globs
    isolate_globs names {}
  simp only [TestSet.mk.injEq] at e1 e2 e3
  have m1 : (names.foldl (default_classifier fnm skip_globs
      isolate_globs) {}).tests_to_skip.map TestInput.name =
      names.filter (fun m => matchesAny fnm m skip_globs) := by
    rw [e1]
    simp only [List.nil_append, List.map_map]
    exact List.map_id'' (fun x => rfl) _
  have m2 : (names.foldl (default_classifier fnm skip_globs
      isolate_globs) {}).isolated_tests.map TestInput.name =
      names.filter (fun m => !matchesAny fnm m skip_globs &&
        matchesAny fnm m isolate_globs) := by
    rw [e2]
    simp only [List.nil_append, List.map_map]
    exact List.map_id'' (fun x => rfl) _
  have m3 : (names.foldl (default_classifier fnm skip_globs
      isolate_globs) {}).parallel_tests.map TestInput.name =
      names.filter (fun m => !matchesAny fnm m skip_globs &&
        !matchesAny fnm m isolate_globs) := by
    rw [e3]
    simp only [List.nil_append, List.map_map]
    exact List.map_id'' (fun x => rfl) _
  refine ⟨m1, m2, m3, ?_, ?_, ?_, ?_⟩
  · intro ti hti
    rw [e1] at hti
    simp only [List.nil_append, List.mem_map, List.mem_filter] at hti
    obtain ⟨m, _, hm⟩ := hti
    rw [← hm]
  · intro r hr
    obtain ⟨a1, a2, _, _, _⟩ := (skipTestsGo_spec clock _ 0).1 r hr
    exact ⟨a1, a2⟩
  · have hmem : ({ name := n, msg := pystr "skipped by request" } :
        TestInput) ∈ (names.foldl (default_classifier fnm skip_globs
        isolate_globs) {}).tests_to_skip := by
      rw [e1]
      simp only [List.nil_append, List.mem_map, List.mem_filter]
      exact ⟨n, ⟨hn, hskip⟩, rfl⟩
    obtain ⟨r, hr, b1, b2⟩ := (skipTestsGo_spec clock _ 0).2 _ hmem
    exact ⟨r, hr, b1, b2⟩
  · intro hx
    have hin := run_one_set_dispatched_sub args_jobs clock exec
      oracleP oracleI _ n hx
    rw [m3, m2] at hin
    rcases List.mem_append.mp hin with hin | hin <;>
      simp [List.mem_filter, hskip] at hin

/-- C7 witness: the classifier contract evaluated on the discovered
names `a`, `b` with skip glob `a` (exact-match glob semantics). -/
theorem C7_default_classifier_witness :
    (pystr "a") ∈ [pystr "a", pystr "b"] ∧
    matchesAny eqFnmatch (pystr "a") [pystr "a"] = true ∧
    (([pystr "a", pystr "b"].foldl (default_classifier eqFnmatch
        [pystr "a"] []) {}).tests_to_skip.map TestInput.name =
      [pystr "a", pystr "b"].filter
        (fun m => matchesAny eqFnmatch m [pystr "a"]) ∧
    ([pystr "a", pystr "b"].foldl (default_classifier eqFnmatch
        [pystr "a"] []) {}).isolated_tests.map TestInput.name =
      [pystr "a", pystr "b"].filter
        (fun m => !matchesAny eqFnmatch m [pystr "a"] &&
          matchesAny eqFnmatch m []) ∧
    ([pystr "a", pystr "b"].foldl (default_classifier eqFnmatch
        [pystr "a"] []) {}).parallel_tests.map TestInput.name =
      [pystr "a", pystr "b"].filter
        (fun m => !matchesAny eqFnmatch m [pystr "a"] &&
          !matchesAny eqFnmatch m []) ∧
    (∀ ti ∈ ([pystr "a", pystr "b"].foldl (default_classifier eqFnmatch
        [pystr "a"] []) {}).tests_to_skip,
      ti.msg = pystr "skipped by request") ∧
    (∀ r ∈ skip_tests zeroClock ([pystr "a", pystr "b"].foldl
        (default_classifier eqFnmatch [pystr "a"] []) {}).tests_to_skip,
      r.actual = ResultType.Skip ∧ r.expected = [ResultType.Skip]) ∧
    (∃ r ∈ skip_tests zeroClock ([pystr "a", pystr "b"].foldl
        (default_classifier eqFnmatch [pystr "a"] []) {}).tests_to_skip,
      r.name = pystr "a" ∧ r.out = pystr "skipped by request") ∧
    (pystr "a") ∉ (run_one_set 2 zeroClock passExec [0] [0]
      ([pystr "a", pystr "b"].foldl (default_classifier eqFnmatch
        [pystr "a"] []) {})).2) :=
  ⟨by decide, by decide,
   C7_default_classifier eqFnmatch [pystr "a"] [] [pystr "a", pystr "b"]
     (pystr "a") zeroClock 2 passExec [0] [0] (by decide) (by decide)⟩

/-- The last element of a nonempty list does not depend on the
`getLastD` fallback. -/
theorem list_getLastD_congr {α : Type _} (l : List α) (d d' : α)
    (h : l ≠ []) : l.getLastD d = l.getLastD d' := by
  cases l with
  | nil => exact absurd rfl h
  | cons a t => rw [List.getLastD_cons, List.getLastD_cons]

/-- Membership in a stable insertion. -/
theorem mem_insertByLe {α : Type _} (le : α → α → Bool) (a : α) :
    ∀ (l : List α) (b : α), b ∈ insertByLe le a l ↔ b = a ∨ b ∈ l := by
  intro l
  induction l with
  | nil => intro b; simp [insertByLe]
  | cons c cs ih =>
    intro b
    simp only [insertByLe]
    split
    · simp
    · rw [List.mem_cons, ih, List.mem_cons]
      tauto

/-- Sorting does not change membership. -/
theorem mem_pySorted {α : Type _} (le : α → α → Bool) :
    ∀ (l : List α) (b : α), b ∈ pySorted le l ↔ b ∈ l := by
  intro l
  induction l with
  | nil => intro b; simp [pySorted]
  | cons x xs ih =>
    intro b
    rw [List.mem_cons, pySorted, mem_insertByLe, ih]

/-- `_sort_inputs` does not change the multiset of names: membership in
the sorted name list is membership in the original name list. -/
theorem sort_inputs_name_mem (l : List TestInput) (x : PyStr) :
    x ∈ (sort_inputs l).map TestInput.name ↔
      x ∈ l.map TestInput.name := by
  simp only [List.mem_map]
  constructor
  · rintro ⟨ti, hti, rfl⟩
    exact ⟨ti, (mem_pySorted _ l ti).mp hti, rfl⟩
  · rintro ⟨ti, hti, rfl⟩
    exact ⟨ti, (mem_pySorted _ l ti).mpr hti, rfl⟩

/-- The spec-modelled failed-name query only returns names of results
in the collection. -/
theorem failed_test_names_sub (results : List Result) :
    ∀ x ∈ failed_test_names results, x ∈ results.map Result.name := by
  intro x hx
  unfold failed_test_names at hx
  exact List.mem_dedup.mp (List.mem_filter.mp hx).1

/-- A retry pass — `_run_one_set` on a test set whose only content is
the isolated bucket holding the failed names — only produces results
for those failed names. -/
theorem retry_pass_names (args_jobs : Nat) (clock : Nat → Nat)
    (exec : PyStr → Result) (oracleP oracleI : List Nat)
    (failed : List PyStr) :
    ∀ r ∈ (run_one_set args_jobs clock exec oracleP oracleI
        (make_test_set [] (failed.map (fun n => { name := n })) [])).1,
      r.name ∈ failed := by
  intro r hr
  simp only [run_one_set, make_test_set] at hr
  have hskip : skip_tests clock (sort_inputs []) = [] := rfl
  have hpar : runListResults args_jobs args_jobs exec oracleP
      (sort_inputs []) = [] := by
    simp [runListResults, run_list, sort_inputs, pySorted]
  rw [hskip, hpar, List.nil_append, List.nil_append] at hr
  have hname := runListResults_name_sub 1 args_jobs exec oracleI
    (sort_inputs (failed.map (fun n => { name := n }))) r hr
  rw [sort_inputs_name_mem] at hname
  simp only [List.map_map, List.mem_map] at hname
  obtain ⟨n, hn, hn2⟩ := hname
  rw [← hn2]
  exact hn

/-- The retry-loop trace always starts with its own (counter, state)
pair. -/
theorem retryGo_head (args_retry_limit args_jobs : Nat)
    (clockAt : Nat → Nat → Nat) (execAt : Nat → PyStr → Result)
    (oracleAt : Nat → List Nat × List Nat) (k : Nat) :
    ∀ (limit : Nat) (s : RetryState),
      (retryGo args_retry_limit args_jobs clockAt execAt oracleAt k
        limit s).head? = some (limit, s) := by
  intro limit s
  cases limit with
  | zero => rfl
  | succ l =>
    simp only [retryGo]
    split <;> rfl

/-- The retry-loop trace is never empty. -/
theorem retryGo_ne_nil (args_retry_limit args_jobs : Nat)
    (clockAt : Nat → Nat → Nat) (execAt : Nat → PyStr → Result)
    (oracleAt : Nat → List Nat × List Nat) (k : Nat)
    (limit : Nat) (s : RetryState) :
    retryGo args_retry_limit args_jobs clockAt execAt oracleAt k
      limit s ≠ [] := by
  cases limit with
  | zero => simp [retryGo]
  | succ l =>
    simp only [retryGo]
    split <;> simp

/-- After a retry pass, the failed names recomputed from the pass are a
subset of the failed names the pass was run on. -/
theorem retryStep_failed_sub (args_retry_limit args_jobs : Nat)
    (clockAt : Nat → Nat → Nat) (execAt : Nat → PyStr → Result)
    (oracleAt : Nat → List Nat × List Nat) (k limit : Nat)
    (s : RetryState) :
    ∀ x ∈ (retryStep args_retry_limit args_jobs clockAt execAt oracleAt
      k limit s).failed, x ∈ s.failed := by
  intro x hx
  simp only [retryStep] at hx
  have hfx := failed_test_names_sub _ x hx
  simp only [List.mem_map] at hfx
  obtain ⟨r, hr, hrx⟩ := hfx
  have := retry_pass_names args_jobs (clockAt k) (execAt k)
    (oracleAt k).1 (oracleAt k).2 _ r hr
  rw [← hrx]
  revert this
  split <;> exact fun h => h

/-- A retry pass only appends to the overall result collection. -/
theorem retryStep_results_append (args_retry_limit args_jobs : Nat)
    (clockAt : Nat → Nat → Nat) (execAt : Nat → PyStr → Result)
    (oracleAt : Nat → List Nat × List Nat) (k limit : Nat)
    (s : RetryState) :
    ∃ new, (retryStep args_retry_limit args_jobs clockAt execAt oracleAt
      k limit s).results = s.results ++ new := by
  simp only [retryStep]
  split <;> exact ⟨_, rfl⟩

/-- A retry iteration whose counter differs from
`self.args.retry_limit` leaves the display settings and the flush
counter untouched. -/
theorem retryStep_frozen (args_retry_limit args_jobs : Nat)
    (clockAt : Nat → Nat → Nat) (execAt : Nat → PyStr → Result)
    (oracleAt : Nat → List Nat × List Nat) (k limit : Nat)
    (s : RetryState) (h : limit ≠ args_retry_limit) :
    (retryStep args_retry_limit args_jobs clockAt execAt oracleAt
      k limit s).flushes = s.flushes ∧
    (retryStep args_retry_limit args_jobs clockAt execAt oracleAt
      k limit s).overwrite = s.overwrite ∧
    (retryStep args_retry_limit args_jobs clockAt execAt oracleAt
      k limit s).should_overwrite = s.should_overwrite ∧
    (retryStep args_retry_limit args_jobs clockAt execAt oracleAt
      k limit s).verbose = s.verbose := by
  simp [retryStep, h]

/-- The first retry iteration (counter still equal to
`self.args.retry_limit`) flushes once, disables both overwrite
settings and caps verbosity at 1. -/
theorem retryStep_first (args_retry_limit args_jobs : Nat)
    (clockAt : Nat → Nat → Nat) (execAt : Nat → PyStr → Result)
    (oracleAt : Nat → List Nat × List Nat) (k limit : Nat)
    (s : RetryState) (h : limit = args_retry_limit) :
    (retryStep args_retry_limit args_jobs clockAt execAt oracleAt
      k limit s).flushes = s.flushes + 1 ∧
    (retryStep args_retry_limit args_jobs clockAt execAt oracleAt
      k limit s).overwrite = false ∧
    (retryStep args_retry_limit args_jobs clockAt execAt oracleAt
      k limit s).should_overwrite = false ∧
    (retryStep args_retry_limit args_jobs clockAt execAt oracleAt
      k limit s).verbose = min s.verbose 1 := by
  simp [retryStep, h]

/-- Safety and termination shape of the retry loop: along the trace the
failed sets only shrink (as name sets) and the result collection only
grows by appending; the final state (and only the final state) has an
empty failed set or an exhausted counter. -/
theorem retryGo_props (args_retry_limit args_jobs : Nat)
    (clockAt : Nat → Nat → Nat) (execAt : Nat → PyStr → Result)
    (oracleAt : Nat → List Nat × List Nat) :
    ∀ (limit : Nat) (k : Nat) (s : RetryState),
      List.Chain' (fun a b => b.2.failed ⊆ a.2.failed)
        (retryGo args_retry_limit args_jobs clockAt execAt oracleAt
          k limit s) ∧
      List.Chain' (fun a b => ∃ new, b.2.results = a.2.results ++ new)
        (retryGo args_retry_limit args_jobs clockAt execAt oracleAt
          k limit s) ∧
      (((retryGo args_retry_limit args_jobs clockAt execAt oracleAt
          k limit s).getLastD (limit, s)).2.failed = [] ∨
        ((retryGo args_retry_limit args_jobs clockAt execAt oracleAt
          k limit s).getLastD (limit, s)).1 = 0) ∧
      (∀ p ∈ (retryGo args_retry_limit args_jobs clockAt execAt
          oracleAt k limit s).dropLast, p.2.failed ≠ [] ∧ p.1 ≠ 0) := by
  intro limit
  induction limit with
  | zero =>
    intro k s
    refine ⟨List.chain'_singleton _, List.chain'_singleton _, ?_, ?_⟩
    · right; rfl
    · intro p hp; simp [retryGo] at hp
  | succ l ih =>
    intro k s
    by_cases hf : s.failed = []
    · simp only [retryGo, if_pos hf]
      refine ⟨List.chain'_singleton _, List.chain'_singleton _, ?_, ?_⟩
      · left; exact hf
      · intro p hp; simp at hp
    · obtain ⟨ih1, ih2, ih3, ih4⟩ := ih (k + 1)
        (retryStep args_retry_limit args_jobs clockAt execAt oracleAt
          k (l + 1) s)
      simp only [retryGo, if_neg hf]
      have hhead := retryGo_head args_retry_limit args_jobs clockAt
        execAt oracleAt (k + 1) l
        (retryStep args_retry_limit args_jobs clockAt execAt oracleAt
          k (l + 1) s)
      have hnn := retryGo_ne_nil args_retry_limit args_jobs clockAt
        execAt oracleAt (k + 1) l
        (retryStep args_retry_limit args_jobs clockAt execAt oracleAt
          k (l + 1) s)
      refine ⟨?_, ?_, ?_, ?_⟩
      · refine List.chain'_cons'.mpr ⟨?_, ih1⟩
        intro y hy
        rw [hhead] at hy
        simp only [Option.mem_def, Option.some.injEq] at hy
        subst hy
        exact fun x hx => retryStep_failed_sub args_retry_limit
          args_jobs clockAt execAt oracleAt k (l + 1) s x hx
      · refine List.chain'_cons'.mpr ⟨?_, ih2⟩
        intro y hy
        rw [hhead] at hy
        simp only [Option.mem_def, Option.some.injEq] at hy
        subst hy
        exact retryStep_results_append args_retry_limit args_jobs
          clockAt execAt oracleAt k (l + 1) s
      · rw [List.getLastD_cons,
          list_getLastD_congr _ _ (l,
            retryStep args_retry_limit args_jobs clockAt execAt
              oracleAt k (l + 1) s) hnn]
        exact ih3
      · rw [List.dropLast_cons_of_ne_nil hnn]
        intro p hp
        rcases List.mem_cons.mp hp with hp | hp
        · subst hp
          exact ⟨hf, by omega⟩
        · exact ih4 p hp

/-- Once the retry counter has fallen below `self.args.retry_limit`,
the display settings and the flush counter never change again along
the rest of the retry trace. -/
theorem retryGo_frozen (args_retry_limit args_jobs : Nat)
    (clockAt : Nat → Nat → Nat) (execAt : Nat → PyStr → Result)
    (oracleAt : Nat → List Nat × List Nat) :
    ∀ (limit : Nat) (k : Nat) (s : RetryState),
      limit < args_retry_limit →
      ∀ p ∈ retryGo args_retry_limit args_jobs clockAt execAt oracleAt
          k limit s,
        p.2.flushes = s.flushes ∧ p.2.overwrite = s.overwrite ∧
        p.2.should_overwrite = s.should_overwrite ∧
        p.2.verbose = s.verbose := by
  intro limit
  induction limit with
  | zero =>
    intro k s _ p hp
    simp only [retryGo, List.mem_singleton] at hp
    subst hp
    exact ⟨rfl, rfl, rfl, rfl⟩
  | succ l ih =>
    intro k s h p hp
    by_cases hf : s.failed = []
    · simp only [retryGo, if_pos hf, List.mem_singleton] at hp
      subst hp
      exact ⟨rfl, rfl, rfl, rfl⟩
    · simp only [retryGo, if_neg hf] at hp
      rcases List.mem_cons.mp hp with hp | hp
      · subst hp
        exact ⟨rfl, rfl, rfl, rfl⟩
      · obtain ⟨a1, a2, a3, a4⟩ := ih (k + 1)
          (retryStep args_retry_limit args_jobs clockAt execAt oracleAt
            k (l + 1) s) (by omega) p hp
        obtain ⟨b1, b2, b3, b4⟩ := retryStep_frozen args_retry_limit
          args_jobs clockAt execAt oracleAt k (l + 1) s (by omega)
        exact ⟨a1.trans b1, a2.trans b2, a3.trans b3, a4.trans b4⟩

/-- C4: along the retry trace of a run the failed-name set after pass
k+1 is a subset of the failed-name set after pass k (each retry pass
runs exactly the previously failed names, so no new name can fail);
retry results are appended to the overall collection, never replacing
earlier results; and the loop stops at exactly the first state whose
failed set is empty or whose counter is zero. -/
theorem C4_retry_invariant (args_retry_limit args_jobs : Nat)
    (clockAt : Nat → Nat → Nat) (execAt : Nat → PyStr → Result)
    (oracleAt : Nat → List Nat × List Nat) (failed0 : List PyStr)
    (results0 : List Result) (overwrite0 : Bool) (verbose0 : Nat) :
    List.Chain' (fun a b => b.2.failed ⊆ a.2.failed)
      (run_tests_retries args_retry_limit args_jobs clockAt execAt
        oracleAt failed0 results0 overwrite0 verbose0) ∧
    List.Chain' (fun a b => ∃ new, b.2.results = a.2.results ++ new)
      (run_tests_retries args_retry_limit args_jobs clockAt execAt
        oracleAt failed0 results0 overwrite0 verbose0) ∧
    (((run_tests_retries args_retry_limit args_jobs clockAt execAt
        oracleAt failed0 results0 overwrite0 verbose0).getLastD
        (args_retry_limit,
          { results := results0, failed := failed0,
            overwrite := overwrite0, should_overwrite := overwrite0,
            verbose := verbose0, flushes := 0 })).2.failed = [] ∨
      ((run_tests_retries args_retry_limit args_jobs clockAt execAt
        oracleAt failed0 results0 overwrite0 verbose0).getLastD
        (args_retry_limit,
          { results := results0, failed := failed0,
            overwrite := overwrite0, should_overwrite := overwrite0,
            verbose := verbose0, flushes := 0 })).1 = 0) ∧
    (∀ p ∈ (run_tests_retries args_retry_limit args_jobs clockAt execAt
        oracleAt failed0 results0 overwrite0 verbose0).dropLast,
      p.2.failed ≠ [] ∧ p.1 ≠ 0) :=
  retryGo_props args_retry_limit args_jobs clockAt execAt oracleAt
    args_retry_limit 0
    { results := results0, failed := failed0, overwrite := overwrite0,
      should_overwrite := overwrite0, verbose := verbose0, flushes := 0 }

/-- C4 witness: the retry invariant evaluated on a run with retry limit
2 over one failed unit `t` that keeps failing. -/
theorem C4_retry_invariant_witness :
    List.Chain' (fun a b => b.2.failed ⊆ a.2.failed)
      (run_tests_retries 2 1 zeroClockAt failExecAt oneIsolatedOracleAt
        [pystr "t"] [] true 0) ∧
    List.Chain' (fun a b => ∃ new, b.2.results = a.2.results ++ new)
      (run_tests_retries 2 1 zeroClockAt failExecAt oneIsolatedOracleAt
        [pystr "t"] [] true 0) ∧
    (((run_tests_retries 2 1 zeroClockAt failExecAt oneIsolatedOracleAt
        [pystr "t"] [] true 0).getLastD
        (2, { results := [], failed := [pystr "t"], overwrite := true,
              should_overwrite := true, verbose := 0,
              flushes := 0 })).2.failed = [] ∨
      ((run_tests_retries 2 1 zeroClockAt failExecAt oneIsolatedOracleAt
        [pystr "t"] [] true 0).getLastD
        (2, { results := [], failed := [pystr "t"], overwrite := true,
              should_overwrite := true, verbose := 0,
              flushes := 0 })).1 = 0) ∧
    (∀ p ∈ (run_tests_retries 2 1 zeroClockAt failExecAt
        oneIsolatedOracleAt [pystr "t"] [] true 0).dropLast,
      p.2.failed ≠ [] ∧ p.1 ≠ 0) :=
  C4_retry_invariant 2 1 zeroClockAt failExecAt oneIsolatedOracleAt
    [pystr "t"] [] true 0

/-- C9: on every run with retry limit at least 1 and a nonempty initial
failed set, the first retry iteration — and only the first — applies
the display side effects: from the state after the first retry
iteration to the end of the trace the flush counter is exactly 1 (it
was 0 initially and never moves again), both overwrite settings are
off, and verbosity is capped at 1. -/
theorem C9_first_retry_once (args_retry_limit args_jobs : Nat)
    (clockAt : Nat → Nat → Nat) (execAt : Nat → PyStr → Result)
    (oracleAt : Nat → List Nat × List Nat) (failed0 : List PyStr)
    (results0 : List Result) (overwrite0 : Bool) (verbose0 : Nat)
    (h1 : 1 ≤ args_retry_limit) (h2 : failed0 ≠ []) :
    2 ≤ (run_tests_retries args_retry_limit args_jobs clockAt execAt
      oracleAt failed0 results0 overwrite0 verbose0).length ∧
    ∀ p ∈ (run_tests_retries args_retry_limit args_jobs clockAt execAt
        oracleAt failed0 results0 overwrite0 verbose0).drop 1,
      p.2.flushes = 1 ∧ p.2.overwrite = false ∧
      p.2.should_overwrite = false ∧ p.2.verbose ≤ 1 := by
  obtain ⟨l, rfl⟩ : ∃ l, args_retry_limit = l + 1 :=
    ⟨args_retry_limit - 1, by omega⟩
  have hstep := retryStep_first (l + 1) args_jobs clockAt execAt
    oracleAt 0 (l + 1)
    { results := results0, failed := failed0, overwrite := overwrite0,
      should_overwrite := overwrite0, verbose := verbose0,
      flushes := 0 } rfl
  have hfro := retryGo_frozen (l + 1) args_jobs clockAt execAt oracleAt
    l 1
    (retryStep (l + 1) args_jobs clockAt execAt oracleAt 0 (l + 1)
      { results := results0, failed := failed0, overwrite := overwrite0,
        should_overwrite := overwrite0, verbose := verbose0,
        flushes := 0 }) (by omega)
  have hnn := retryGo_ne_nil (l + 1) args_jobs clockAt execAt oracleAt
    1 l
    (retryStep (l + 1) args_jobs clockAt execAt oracleAt 0 (l + 1)
      { results := results0, failed := failed0, overwrite := overwrite0,
        should_overwrite := overwrite0, verbose := verbose0,
        flushes := 0 })
  have hunfold : run_tests_retries (l + 1) args_jobs clockAt execAt
      oracleAt failed0 results0 overwrite0 verbose0 =
      (l + 1,
        { results := results0, failed := failed0,
          overwrite := overwrite0, should_overwrite := overwrite0,
          verbose := verbose0, flushes := 0 }) ::
      retryGo (l + 1) args_jobs clockAt execAt oracleAt 1 l
        (retryStep (l + 1) args_jobs clockAt execAt oracleAt 0 (l + 1)
          { results := results0, failed := failed0,
            overwrite := overwrite0, should_overwrite := overwrite0,
            verbose := verbose0, flushes := 0 }) := by
    simp only [run_tests_retries, retryGo]
    rw [if_neg h2]
  rw [hunfold]
  constructor
  · have := List.length_pos.mpr hnn
    simp only [List.length_cons]
    omega
  · intro p hp
    simp only [List.drop_one, List.tail_cons] at hp
    obtain ⟨a1, a2, a3, a4⟩ := hfro p hp
    obtain ⟨b1, b2, b3, b4⟩ := hstep
    refine ⟨?_, ?_, ?_, ?_⟩
    · rw [a1, b1]
    · rw [a2, b2]
    · rw [a3, b3]
    · rw [a4, b4]
      exact Nat.min_le_right _ _

/-- C9 witness: the first-retry side effects evaluated on a run with
retry limit 2 over one persistently failing unit `t`, starting with
overwrite on and verbosity 3. -/
theorem C9_first_retry_once_witness :
    1 ≤ 2 ∧ ([pystr "t"] : List PyStr) ≠ [] ∧
    (2 ≤ (run_tests_retries 2 1 zeroClockAt failExecAt
      oneIsolatedOracleAt [pystr "t"] [] true 3).length ∧
    ∀ p ∈ (run_tests_retries 2 1 zeroClockAt failExecAt
        oneIsolatedOracleAt [pystr "t"] [] true 3).drop 1,
      p.2.flushes = 1 ∧ p.2.overwrite = false ∧
      p.2.should_overwrite = false ∧ p.2.verbose ≤ 1) :=
  ⟨by decide, by decide,
   C9_first_retry_once 2 1 zeroClockAt failExecAt oneIsolatedOracleAt
     [pystr "t"] [] true 3 (by decide) (by decide)⟩

/-- Looking a dotted name up in a consistent `loaded_suites` cache
(importing and storing on a miss) always yields the importer's answer
for that name. -/
theorem lookupOrStore_val (importer : PyStr → Option (List PyStr))
    (cache : List (PyStr × Option (List PyStr))) (name : PyStr)
    (hc : ∀ k v, (k, v) ∈ cache → v = importer k) :
    (lookupSuite (if (lookupSuite cache name).isSome then cache
      else cache ++ [(name, importer name)]) name).getD none =
      importer name := by
  by_cases hit : (lookupSuite cache name).isSome
  · rw [if_pos hit]
    obtain ⟨v, hv⟩ := Option.isSome_iff_exists.mp hit
    have hv2 := hv
    unfold lookupSuite at hv2
    obtain ⟨e, he, hesnd⟩ := Option.map_eq_some'.mp hv2
    have hpred := List.find?_some he
    have hkey : e.1 = name := of_decide_eq_true hpred
    have hmeme := List.mem_of_find?_eq_some he
    have := hc e.1 e.2 (by rw [Prod.mk.eta]; exact hmeme)
    rw [hv, Option.getD_some, ← hesnd, this, hkey]
  · rw [if_neg hit]
    have hnone : cache.find? (fun e => decide (e.1 = name)) = none := by
      unfold lookupSuite at hit
      rcases hfind : cache.find? (fun e => decide (e.1 = name)) with _ | e
      · exact hfind
      · rw [hfind] at hit
        simp at hit
    unfold lookupSuite
    rw [List.find?_append, hnone]
    simp

/-- Storing the importer's answer on a cache miss keeps the cache
consistent with the importer. -/
theorem lookupOrStore_ok (importer : PyStr → Option (List PyStr))
    (cache : List (PyStr × Option (List PyStr))) (name : PyStr)
    (hc : ∀ k v, (k, v) ∈ cache → v = importer k) :
    ∀ k v, (k, v) ∈ (if (lookupSuite cache name).isSome then cache
      else cache ++ [(name, importer name)]) → v = importer k := by
  intro k v hkv
  split at hkv
  · exact hc k v hkv
  · rcases List.mem_append.mp hkv with h | h
    · exact hc k v h
    · simp only [List.mem_singleton, Prod.mk.injEq] at h
      rw [h.2, h.1]

/-- Characterization of the `_load_via_load_tests` walk: starting from
a cache consistent with the importer, the new suite accumulates, for
every tried dotted prefix (from most to least specific) whose loaded
group contains the requested name, one occurrence of that name — with
no early termination. -/
theorem loadTestsLoop_spec (importer : PyStr → Option (List PyStr))
    (test_name : PyStr) :
    ∀ (comps : List PyStr) (cache : List (PyStr × Option (List PyStr)))
      (acc : List PyStr),
      (∀ k v, (k, v) ∈ cache → v = importer k) →
      (loadTestsLoop importer test_name comps cache acc).1 =
        acc ++ (chainNames comps).filterMap (fun p =>
          if ((importer p).getD []).contains test_name then
            some test_name else none) := by
  intro comps
  induction comps with
  | nil => intro cache acc hc; simp [loadTestsLoop, chainNames]
  | cons c cs ih =>
    intro cache acc hc
    have hval := lookupOrStore_val importer cache
      (pyJoin '.' (c :: cs).reverse) hc
    have hok := lookupOrStore_ok importer cache
      (pyJoin '.' (c :: cs).reverse) hc
    simp only [loadTestsLoop, chainNames]
    rw [ih _ _ hok, List.filterMap_cons, hval]
    cases himp : importer (pyJoin '.' (c :: cs).reverse) with
    | none => simp
    | some ids =>
      by_cases hcont : test_name ∈ ids
      · simp [hcont]
      · simp [hcont]

/-- C2 as amended: when direct resolution fails, the fallback walks the
dotted name from most-specific to least-specific prefix and tries
EVERY prefix — there is no early termination on the first match; each
prefix whose loaded group contains the requested name contributes one
unit with that name (the per-group scan stops at the group's first
match), so the returned group holds one occurrence of the requested
name per matching prefix and can hold more than one. -/
theorem C2_amended_fallback_walk (importer : PyStr → Option (List PyStr))
    (cache : List (PyStr × Option (List PyStr))) (test_name : PyStr)
    (hc : ∀ k v, (k, v) ∈ cache → v = importer k) :
    (load_via_load_tests importer cache test_name).1 =
      (chainNames (pySplit '.' test_name).reverse).filterMap (fun p =>
        if ((importer p).getD []).contains test_name then some test_name
        else none) := by
  unfold load_via_load_tests
  rw [loadTestsLoop_spec importer test_name _ cache [] hc]
  simp

/-- C2 amended witness: the fallback-walk characterization evaluated on
the name `a.b.t` with a fresh cache and the importer on which both the
prefixes `a.b` and `a` load a group containing `a.b.t`. -/
theorem C2_amended_fallback_walk_witness :
    (∀ k v, (k, v) ∈ ([] : List (PyStr × Option (List PyStr))) →
      v = c2Importer k) ∧
    (load_via_load_tests c2Importer [] (pystr "a.b.t")).1 =
      (chainNames (pySplit '.' (pystr "a.b.t")).reverse).filterMap
        (fun p => if ((c2Importer p).getD []).contains (pystr "a.b.t")
          then some (pystr "a.b.t") else none) :=
  ⟨fun k v h => absurd h (List.not_mem_nil _),
   C2_amended_fallback_walk c2Importer [] (pystr "a.b.t")
     (fun k v h => absurd h (List.not_mem_nil _))⟩

/-- C10: no engine operation ever marks a Result flaky — the outcome
classifier always sets flaky to false, every synthesized Skip result
has a false flaky flag, and every Result `_run_one_test` returns
(normal execution or the load-cardinality failure path) has a false
flaky flag. -/
theorem C10_flaky_always_false :
    (∀ (tr : UnitTestResult) (test_name : PyStr) (start took : Nat)
        (out err : PyStr) (worker_num pid : Nat),
      (result_from_test_result tr test_name start took out err
        worker_num pid).flaky = false) ∧
    (∀ (clock : Nat → Nat) (tests : List TestInput),
      ∀ r ∈ skip_tests clock tests, r.flaky = false) ∧
    (∀ (passthrough dry_run : Bool)
        (direct_load : Except PyStr (List PyStr))
        (importer : PyStr → Option (List PyStr))
        (cache : List (PyStr × Option (List PyStr)))
        (exec : PyStr → UnitTestResult) (worker_num pid start finish : Nat)
        (captured_out captured_err test_name : PyStr) (r : Result)
        (b : Bool),
      run_one_test passthrough dry_run direct_load importer cache exec
        worker_num pid start finish captured_out captured_err test_name =
        Except.ok (r, b) → r.flaky = false) := by
  have hflaky : ∀ (tr : UnitTestResult) (test_name : PyStr)
      (start took : Nat) (out err : PyStr) (worker_num pid : Nat),
      (result_from_test_result tr test_name start took out err
        worker_num pid).flaky = false := by
    intro tr test_name start took out err worker_num pid
    unfold result_from_test_result
    split_ifs <;> rfl
  refine ⟨hflaky, ?_, ?_⟩
  · intro clock tests r hr
    exact ((skipTestsGo_spec clock tests 0).1 r hr).2.2.1
  · intro passthrough dry_run direct_load importer cache exec worker_num
      pid start finish captured_out captured_err test_name r b h
    cases direct_load with
    | ok s =>
      simp only [run_one_test] at h
      split at h
      · exact absurd h (by simp)
      · simp only [Except.ok.injEq, Prod.mk.injEq] at h
        rw [← h.1]
        exact hflaky _ _ _ _ _ _ _ _
    | error m =>
      simp only [run_one_test] at h
      split at h
      · simp only [Except.ok.injEq, Prod.mk.injEq] at h
        rw [← h.1]
      · simp only [Except.ok.injEq, Prod.mk.injEq] at h
        rw [← h.1]
        exact hflaky _ _ _ _ _ _ _ _

/-- C10 witness: the flaky flag evaluated on a clean pass of unit `t`
through `_run_one_test` and on the classifier directly. -/
theorem C10_flaky_always_false_witness :
    (result_from_test_result ({} : UnitTestResult) (pystr "t") 0 0 [] []
      0 0).flaky = false ∧
    run_one_test false false (Except.ok [pystr "t"]) noneImporter []
      emptyExec 0 0 0 0 [] [] (pystr "t") =
      Except.ok (result_from_test_result ({} : UnitTestResult)
        (pystr "t") 0 0 [] [] 0 0, true) ∧
    (result_from_test_result ({} : UnitTestResult) (pystr "t") 0 0 [] []
      0 0).flaky = false :=
  ⟨C10_flaky_always_false.1 {} (pystr "t") 0 0 [] [] 0 0, rfl,
   C10_flaky_always_false.2.2 false false (Except.ok [pystr "t"])
     noneImporter [] emptyExec 0 0 0 0 [] [] (pystr "t")
     (result_from_test_result ({} : UnitTestResult) (pystr "t") 0 0 []
       [] 0 0) true rfl⟩

/-- C3 witness: the precedence table evaluated on a record holding one
recorded failure. -/
theorem C3_outcome_precedence_witness :
    ((result_from_test_result { failures := [pystr "x"] } (pystr "t")
        0 0 [] [] 0 0).actual,
     (result_from_test_result { failures := [pystr "x"] } (pystr "t")
        0 0 [] [] 0 0).expected,
     (result_from_test_result { failures := [pystr "x"] } (pystr "t")
        0 0 [] [] 0 0).unexpected,
     (result_from_test_result { failures := [pystr "x"] } (pystr "t")
        0 0 [] [] 0 0).code) =
    claimedOutcome
      (!({ failures := [pystr "x"] } : UnitTestResult).failures.isEmpty)
      (!({ failures := [pystr "x"] } : UnitTestResult).errors.isEmpty)
      (!({ failures := [pystr "x"] } : UnitTestResult).skipped.isEmpty)
      (!({ failures := [pystr "x"] } :
          UnitTestResult).expectedFailures.isEmpty)
      (!({ failures := [pystr "x"] } :
          UnitTestResult).unexpectedSuccesses.isEmpty) :=
  C3_outcome_precedence { failures := [pystr "x"] } (pystr "t") 0 0 []
    [] 0 0

/-- C6 amended witness: the amended exit-code law evaluated on a
document with one unexpected failure and a clean upload. -/
theorem C6_amended_exit_code_law_witness :
    run_final_ret { num_unexpected_failures := 1 } 0 = 0 ↔
      (({ num_unexpected_failures := 1 } :
          FullResults).num_unexpected_failures = 0 ∧ 0 = 0) :=
  C6_amended_exit_code_law { num_unexpected_failures := 1 } 0
